import Mathlib

/-!
Shallow embedding of `src/main.py` (organic_detection_api): an append-only
SQLite event store, three aggregation queries, and a websocket broadcast hub.

Modelling conventions:
* SQLite `DATETIME` values (always produced by `CURRENT_TIMESTAMP` /
  `datetime('now', ...)`, hence well-formed `YYYY-MM-DD HH:MM:SS` text) are
  modelled as a `DateTime` structure of numeric fields; SQLite's text
  comparison of two such well-formed strings is their lexicographic field
  comparison, embedded as `dtLt`.
* `confidence` (SQL `FLOAT`) is modelled as `ℚ`; no claim under study depends
  on floating-point rounding, only on counts, nullness and exact zeros.
* The `detections` table is a `Store`: a list of rows plus the AUTOINCREMENT
  counter.  The CHECK constraint `item_type IN ('organic')` makes an insert
  with any other (non-null) string fail with an IntegrityError and leave the
  table unchanged, embedded in `insertDetection`.
* SQLite `GROUP BY k` on these queries emits one row per distinct key, in
  ascending key order (temp-B-tree grouping); embedded as `groupKeys`,
  the ascending list of distinct keys.
-/

structure DateTime where
  year : Nat
  month : Nat
  day : Nat
  hour : Nat
  minute : Nat
  second : Nat
deriving Repr, DecidableEq

/-- SQLite text comparison `a < b` of two well-formed datetime strings:
lexicographic on the numeric fields. -/
def dtLt (a b : DateTime) : Bool :=
  if a.year ≠ b.year then decide (a.year < b.year)
  else if a.month ≠ b.month then decide (a.month < b.month)
  else if a.day ≠ b.day then decide (a.day < b.day)
  else if a.hour ≠ b.hour then decide (a.hour < b.hour)
  else if a.minute ≠ b.minute then decide (a.minute < b.minute)
  else decide (a.second < b.second)

/-- `DATE(x) = DATE(y)`: equality of the calendar-date prefix. -/
def sameDate (a b : DateTime) : Bool :=
  a.year = b.year && a.month = b.month && a.day = b.day

def isLeap (y : Nat) : Bool :=
  (y % 4 = 0 && y % 100 ≠ 0) || y % 400 = 0

def daysInMonth (y m : Nat) : Nat :=
  if m = 2 then (if isLeap y then 29 else 28)
  else if m = 4 || m = 6 || m = 9 || m = 11 then 30
  else 31

/-- `datetime('now', '-24 hours')`: subtract one calendar day (86400 s) with
calendar borrow; the time-of-day fields are unchanged. -/
def prevDay (d : DateTime) : DateTime :=
  if d.day > 1 then { d with day := d.day - 1 }
  else if d.month > 1 then
    { d with month := d.month - 1, day := daysInMonth d.year (d.month - 1) }
  else
    { d with year := d.year - 1, month := 12, day := 31 }

/-- One row of the `detections` table. -/
structure Detection where
  id : Nat
  detection_time : DateTime
  item_type : String
  confidence : ℚ
deriving Repr, DecidableEq

/-- The `detections` table: rows in insertion order plus the AUTOINCREMENT
counter (next rowid to assign). -/
structure Store where
  nextId : Nat
  events : List Detection
deriving Repr, DecidableEq

/-- The freshly created table of `init_db`. -/
def emptyStore : Store := { nextId := 1, events := [] }

/-- Store invariant maintained by SQLite AUTOINCREMENT: every assigned id is
below the counter. -/
def Store.Wf (st : Store) : Prop :=
  ∀ e ∈ st.events, e.id < st.nextId

inductive SqlError where
  | integrityError
deriving Repr, DecidableEq

/-- `INSERT INTO detections (item_type, confidence) VALUES (?, ?)` followed by
`SELECT last_insert_rowid()`.  The CHECK constraint `item_type IN ('organic')`
(from `init_db`) rejects any other string: the statement raises an
IntegrityError and the table is unchanged. -/
def insertDetection (st : Store) (item_type : String) (confidence : ℚ)
    (now : DateTime) : Store × Except SqlError Nat :=
  if item_type = "organic" then
    ({ nextId := st.nextId + 1,
       events := st.events ++
         [{ id := st.nextId, detection_time := now,
            item_type := item_type, confidence := confidence }] },
     Except.ok st.nextId)
  else
    (st, Except.error SqlError.integrityError)

/-! ## Aggregator: `get_stats` (`GET /api/stats`) -/

/-- `strftime('%H', t)`: the two-digit hour-of-day label. -/
def hourLabel (h : Nat) : String :=
  if h < 10 then "0" ++ toString h else toString h

/-- Insert a key into an ascending duplicate-free key list (building the
group keys that SQLite `GROUP BY` emits, ascending, one per distinct key). -/
def insertKey (x : Nat) : List Nat → List Nat
  | [] => [x]
  | y :: ys =>
    if x < y then x :: y :: ys
    else if x = y then y :: ys
    else y :: insertKey x ys

/-- The distinct keys of a list, ascending: the group keys of `GROUP BY`. -/
def groupKeys (l : List Nat) : List Nat := l.foldr insertKey []

/-- One element of `hourly_data` in the `/api/stats` response. -/
structure HourRow where
  hour : String
  count : Nat
  confidence : ℚ
deriving Repr, DecidableEq

/-- The `/api/stats` response body. `daily_avg_confidence` is `none` exactly
when SQL `AVG` returns NULL (no rows for the current day). -/
structure StatsResult where
  daily_total : Nat
  daily_avg_confidence : Option ℚ
  compost_kg : ℚ
  hourly_data : List HourRow
deriving Repr, DecidableEq

/-- The rows of the hourly query
`SELECT strftime('%H',detection_time), COUNT(*), AVG(confidence) ... GROUP BY hour`
over an already-filtered event list. -/
def hourlyRows (recent : List Detection) : List HourRow :=
  (groupKeys (recent.map (fun e => e.detection_time.hour))).map (fun h =>
    let g := recent.filter (fun e => e.detection_time.hour = h)
    { hour := hourLabel h, count := g.length,
      confidence := (g.map (fun e => e.confidence)).sum / (g.length : ℚ) })

set_option linter.unusedVariables false in
/-- `get_stats(hours)` (`GET /api/stats`).  Mirrors the source: the `hours`
parameter is accepted but never used — the hourly query's SQL hardcodes
`datetime('now','-24 hours')`.  The daily block is
`SELECT COUNT(*), AVG(confidence) WHERE DATE(detection_time)=DATE('now')`;
`AVG` over zero rows is NULL; `compost_kg = count * 0.1`. -/
def get_stats (st : Store) (now : DateTime) (hours : Nat) : StatsResult :=
  let todays := st.events.filter (fun e => sameDate e.detection_time now)
  let recent := st.events.filter (fun e => dtLt (prevDay now) e.detection_time)
  { daily_total := todays.length
    daily_avg_confidence :=
      if todays.length = 0 then none
      else some ((todays.map (fun e => e.confidence)).sum / (todays.length : ℚ))
    compost_kg := (todays.length : ℚ) * (1 / 10)
    hourly_data := hourlyRows recent }

/-! ## Aggregator: `get_monthly_detections` (`GET /detections/monthly`) -/

/-- One element of the `/detections/monthly` response. -/
structure MonthlyDetection where
  month_name : String
  detection_count : Nat
  masse : Nat
deriving Repr, DecidableEq

/-- The `months` CTE: fixed French month names, `month_num` 1..12. -/
def monthsTable : List (Nat × String) :=
  [(1, "Janvier"), (2, "Février"), (3, "Mars"), (4, "Avril"),
   (5, "Mai"), (6, "Juin"), (7, "Juillet"), (8, "Août"),
   (9, "Septembre"), (10, "Octobre"), (11, "Novembre"), (12, "Décembre")]

/-- `detections_by_month` for one month: rows with
`strftime('%Y',detection_time)='2025'` and month number `m`. -/
def monthCount (st : Store) (m : Nat) : Nat :=
  ((st.events.filter (fun e => e.detection_time.year = 2025)).filter
    (fun e => e.detection_time.month = m)).length

/-- `get_monthly_detections` (`GET /detections/monthly`): the `months` CTE
LEFT JOINed with `detections_by_month` on `month_num`, `COALESCE(count,0)`,
`masse = COALESCE(count,0)*100`, ordered by `month_num`. -/
def get_monthly_detections (st : Store) : List MonthlyDetection :=
  monthsTable.map (fun p =>
    { month_name := p.2, detection_count := monthCount st p.1,
      masse := monthCount st p.1 * 100 })

/-! ## Broadcast hub (`ConnectionManager`) and the API endpoints -/

/-- One websocket client of the `ConnectionManager`.  `alive` is whether
`send_json` on it succeeds; `inbox` is what it has received (FIFO). -/
structure Client (α : Type) where
  cid : Nat
  alive : Bool
  inbox : List α
deriving Repr, DecidableEq

inductive ChannelError where
  | sendFailed
deriving Repr, DecidableEq

/-- `ConnectionManager.broadcast`: `for connection in self.active_connections:
await connection.send_json(message)`.  There is no try/except: the first
failing send raises out of the loop.  Clients before the failure have already
received the message; the failing client and all later ones are untouched, and
nothing is removed from the list. -/
def broadcast {α : Type} : List (Client α) → α → List (Client α) × Option ChannelError
  | [], _ => ([], none)
  | c :: rest, msg =>
    if c.alive then
      let c' := { c with inbox := c.inbox ++ [msg] }
      let r := broadcast rest msg
      (c' :: r.1, r.2)
    else
      (c :: rest, some ChannelError.sendFailed)

inductive ValueError where
  | notInList
deriving Repr, DecidableEq

/-- Python `list.remove(x)` on `active_connections` (the only unsubscribe path,
in `websocket_endpoint`'s `except WebSocketDisconnect` handler): removes the
first occurrence of the handle, raises `ValueError` when the handle is absent,
in which case the list is unchanged. -/
def listRemove {α : Type} : List (Client α) → Nat → Except ValueError (List (Client α))
  | [], _ => Except.error ValueError.notInList
  | c :: rest, target =>
    if c.cid = target then Except.ok rest
    else (listRemove rest target).map (fun l => c :: l)

/-- The JSON message `add_detection` broadcasts. -/
structure WsMessage where
  event : String
  dataId : Nat
  dataConfidence : ℚ
  dataTimestamp : DateTime
  stats : StatsResult
deriving Repr, DecidableEq

/-- The JSON body `{"status": "success"}`. -/
structure ApiResponse where
  status : String
deriving Repr, DecidableEq

/-- `add_detection` (`POST /api/organic?confidence=...`): insert
`('organic', confidence)` (always passes the CHECK), read
`last_insert_rowid()`, compute `get_stats()` (default `hours=24`), broadcast
`{"event":"new_detection", "data":{...}, "stats":...}`.  A broadcast error
propagates out of the handler (the HTTP 200 `{"status":"success"}` is only
reached when the broadcast loop finishes); the committed insert survives
either way. -/
def add_detection (st : Store) (conns : List (Client WsMessage))
    (confidence : ℚ) (now : DateTime) :
    Store × List (Client WsMessage) × Except ChannelError ApiResponse :=
  let ins := insertDetection st "organic" confidence now
  let st' := ins.1
  let detection_id := (ins.2.toOption).getD 0
  let stats := get_stats st' now 24
  let b := broadcast conns
    { event := "new_detection", dataId := detection_id,
      dataConfidence := confidence, dataTimestamp := now, stats := stats }
  (st', b.1,
    match b.2 with
    | some e => Except.error e
    | none => Except.ok { status := "success" })

/-- The 24 two-digit hour labels `"00"`..`"23"`. -/
def hourLabels : List String :=
  ["00", "01", "02", "03", "04", "05", "06", "07", "08", "09", "10", "11",
   "12", "13", "14", "15", "16", "17", "18", "19", "20", "21", "22", "23"]

/-- A one-event store (detection at 2025-06-15 10:00:00), used to instantiate
the hypotheses of the general theorems on a concrete input. -/
def wStore : Store :=
  { nextId := 2,
    events := [{ id := 1, detection_time := ⟨2025, 6, 15, 10, 0, 0⟩,
                 item_type := "organic", confidence := 0 }] }

/-- A concrete query time, 2025-06-15 12:00:00. -/
def wNow : DateTime := ⟨2025, 6, 15, 12, 0, 0⟩

/-- Lexicographic codepoint comparison of character lists: SQLite's text
ordering for the ASCII labels at hand. -/
def charsLt : List Char → List Char → Bool
  | [], [] => false
  | [], _ :: _ => true
  | _ :: _, [] => false
  | c :: cs, d :: ds =>
    if c.toNat < d.toNat then true
    else if d.toNat < c.toNat then false
    else charsLt cs ds

/-- Strict ascending text order on strings (SQLite text comparison). -/
def strLt (a b : String) : Bool := charsLt a.data b.data

/-! ## Helper lemmas on the group-key machinery -/

theorem mem_insertKey (x y : Nat) (l : List Nat) :
    y ∈ insertKey x l ↔ y = x ∨ y ∈ l := by
  induction l with
  | nil => simp [insertKey]
  | cons z zs ih =>
    by_cases h1 : x < z
    · simp [insertKey, h1, List.mem_cons]
      try tauto
    · by_cases h2 : x = z
      · subst h2
        simp [insertKey, h1, List.mem_cons]
        try tauto
      · simp [insertKey, h1, h2, List.mem_cons, ih]
        try tauto

theorem pairwise_insertKey (x : Nat) (l : List Nat)
    (h : l.Pairwise (fun a b => a < b)) :
    (insertKey x l).Pairwise (fun a b => a < b) := by
  induction l with
  | nil => simp [insertKey]
  | cons z zs ih =>
    rcases List.pairwise_cons.mp h with ⟨hz, hzs⟩
    by_cases h1 : x < z
    · simp only [insertKey, if_pos h1]
      refine List.pairwise_cons.mpr ⟨?_, h⟩
      intro y hy
      rcases List.mem_cons.mp hy with rfl | hy'
      · exact h1
      · exact Nat.lt_trans h1 (hz y hy')
    · by_cases h2 : x = z
      · simpa only [insertKey, if_neg h1, if_pos h2] using h
      · simp only [insertKey, if_neg h1, if_neg h2]
        refine List.pairwise_cons.mpr ⟨?_, ih hzs⟩
        intro y hy
        rcases (mem_insertKey x y zs).mp hy with rfl | hy'
        · omega
        · exact hz y hy'

theorem mem_groupKeys (y : Nat) (l : List Nat) : y ∈ groupKeys l ↔ y ∈ l := by
  induction l with
  | nil => simp [groupKeys]
  | cons z zs ih =>
    rw [show groupKeys (z :: zs) = insertKey z (groupKeys zs) from rfl,
      mem_insertKey, ih, List.mem_cons]

theorem pairwise_groupKeys (l : List Nat) :
    (groupKeys l).Pairwise (fun a b => a < b) := by
  induction l with
  | nil => simp [groupKeys]
  | cons z zs ih => exact pairwise_insertKey z _ ih

theorem length_filter_split {α : Type} (p : α → Bool) (l : List α) :
    (l.filter p).length + (l.filter (fun a => !p a)).length = l.length := by
  induction l with
  | nil => simp
  | cons a as ih =>
    by_cases h : p a <;> simp [List.filter_cons, h] <;> omega

/-- Counting partition: summing, over a duplicate-free list of keys covering
all the `f`-values of `l`, the number of elements of `l` at each key gives
back the length of `l`. -/
theorem sum_filter_lengths {α : Type} (f : α → Nat) :
    ∀ (keys : List Nat) (l : List α), keys.Pairwise (fun a b => a < b) →
      (∀ a ∈ l, f a ∈ keys) →
      (keys.map (fun h => (l.filter (fun a => f a = h)).length)).sum = l.length := by
  intro keys
  induction keys with
  | nil =>
    intro l _ hmem
    have hl : l = [] := by
      cases l with
      | nil => rfl
      | cons a as => exact absurd (hmem a (List.mem_cons_self a as)) (by simp)
    subst hl
    simp
  | cons k ks ih =>
    intro l hpw hmem
    rcases List.pairwise_cons.mp hpw with ⟨hk, hks⟩
    have hmap : ks.map (fun h => (l.filter (fun a => f a = h)).length)
        = ks.map (fun h =>
            ((l.filter (fun a => !(decide (f a = k)))).filter
              (fun a => f a = h)).length) := by
      apply List.map_congr_left
      intro h hh
      have hkh : k ≠ h := Nat.ne_of_lt (hk h hh)
      rw [List.filter_filter]
      congr 1
      apply List.filter_congr
      intro a _
      by_cases hfa : f a = h
      · simp [hfa]
        omega
      · simp [hfa]
    have hih : ((ks.map (fun h =>
        ((l.filter (fun a => !(decide (f a = k)))).filter
          (fun a => f a = h)).length)).sum)
        = (l.filter (fun a => !(decide (f a = k)))).length := by
      apply ih _ hks
      intro a ha
      rcases List.mem_filter.mp ha with ⟨hal, hak⟩
      have : f a ∈ k :: ks := hmem a hal
      rcases List.mem_cons.mp this with heq | hmem'
      · simp [heq] at hak
      · exact hmem'
    have hsplit := length_filter_split (fun a => decide (f a = k)) l
    simp only [List.map_cons, List.sum_cons, hmap, hih]
    omega

/-! ## Claim theorems -/

/-- Claim C7: for every store state and every category value other than
`"organic"`, the insert fails with the CHECK-constraint integrity error and
the stored event count is unchanged. -/
theorem insert_unknown_category_rejected (st : Store) (cat : String)
    (conf : ℚ) (now : DateTime) (h : cat ≠ "organic") :
    (insertDetection st cat conf now).2 = Except.error SqlError.integrityError ∧
    (insertDetection st cat conf now).1 = st ∧
    (insertDetection st cat conf now).1.events.length = st.events.length := by
  simp [insertDetection, h]

/-- Witness for C7: `append("plastic", 0.5)` fails and leaves the empty store
unchanged. -/
theorem insert_unknown_category_rejected_witness :
    (insertDetection emptyStore "plastic" (1/2) ⟨2025, 6, 15, 12, 0, 0⟩).2
      = Except.error SqlError.integrityError ∧
    (insertDetection emptyStore "plastic" (1/2) ⟨2025, 6, 15, 12, 0, 0⟩).1
      = emptyStore := by
  have h := insert_unknown_category_rejected emptyStore "plastic" (1/2)
    ⟨2025, 6, 15, 12, 0, 0⟩ (by decide)
  exact ⟨h.1, h.2.1⟩

/-- Claim C6: a `reportDetection` call appends exactly one event, whose id is
the AUTOINCREMENT counter, strictly greater than every previously assigned
id; the counter invariant is preserved. -/
theorem report_detection_id_monotone (st : Store)
    (conns : List (Client WsMessage)) (conf : ℚ) (now : DateTime)
    (hwf : st.Wf) :
    (add_detection st conns conf now).1.events
        = st.events ++ [{ id := st.nextId, detection_time := now,
                          item_type := "organic", confidence := conf }] ∧
    (add_detection st conns conf now).1.events.length
        = st.events.length + 1 ∧
    (∀ e ∈ st.events, e.id < st.nextId) ∧
    (add_detection st conns conf now).1.Wf := by
  refine ⟨by simp [add_detection, insertDetection], ?_, hwf, ?_⟩
  · simp [add_detection, insertDetection]
  · intro e he
    simp [add_detection, insertDetection] at he
    rcases he with he | he
    · have := hwf e he
      simp [add_detection, insertDetection]
      omega
    · simp [add_detection, insertDetection, he]

/-- Witness for C6: reporting a detection on the empty store stores one event
with id 1. -/
theorem report_detection_id_monotone_witness :
    (add_detection emptyStore [] (1/2) ⟨2025, 6, 15, 12, 0, 0⟩).1.events
        = [{ id := 1, detection_time := ⟨2025, 6, 15, 12, 0, 0⟩,
             item_type := "organic", confidence := 1/2 }] ∧
    (add_detection emptyStore [] (1/2) ⟨2025, 6, 15, 12, 0, 0⟩).1.events.length
        = 1 := by
  have h := report_detection_id_monotone emptyStore [] (1/2)
    ⟨2025, 6, 15, 12, 0, 0⟩ (by intro e he; simp [emptyStore] at he)
  exact ⟨h.1, h.2.1⟩

/-- Claim C10: with no subscribed client, `broadcast` is a no-op raising no
error, and a `reportDetection` call still appends its event and returns the
success response. -/
theorem report_with_no_subscribers_succeeds (st : Store) (conf : ℚ)
    (now : DateTime) (msg : WsMessage) :
    broadcast ([] : List (Client WsMessage)) msg = ([], none) ∧
    (add_detection st [] conf now).2.2
        = Except.ok { status := "success" } ∧
    (add_detection st [] conf now).2.1 = [] ∧
    (add_detection st [] conf now).1.events.length = st.events.length + 1 := by
  refine ⟨rfl, rfl, rfl, ?_⟩
  simp [add_detection, insertDetection]

/-- Claim C5: for every store state, the monthly breakdown has exactly 12
entries in calendar order January..December; each entry's `masse` is
`detection_count * 100`; entry `i` reports exactly the count of month `i+1`
(so a month with no events reports `detection_count = 0` and `masse = 0`). -/
theorem monthly_breakdown_shape (st : Store) :
    ((get_monthly_detections st).map (fun r => r.month_name)
        = monthsTable.map (fun p => p.2)) ∧
    ((get_monthly_detections st).length = 12) ∧
    (∀ r ∈ get_monthly_detections st, r.masse = r.detection_count * 100) ∧
    (∀ i, i < 12 →
      (get_monthly_detections st).getD i ⟨"", 0, 0⟩ =
        { month_name := (monthsTable.getD i (0, "")).2,
          detection_count := monthCount st (i + 1),
          masse := monthCount st (i + 1) * 100 }) := by
  refine ⟨?_, ?_, ?_, ?_⟩
  · simp [get_monthly_detections]
  · simp [get_monthly_detections, monthsTable]
  · intro r hr
    rcases List.mem_map.mp hr with ⟨p, _, rfl⟩
    rfl
  · intro i hi
    interval_cases i <;> rfl

/-- Witness for C5: on the empty store, the first row is
`{Janvier, 0, 0}` and every row's `masse` is `detection_count * 100`. -/
theorem monthly_breakdown_shape_witness :
    (get_monthly_detections emptyStore).getD 0 ⟨"", 0, 0⟩
        = { month_name := "Janvier", detection_count := 0, masse := 0 } ∧
    ((get_monthly_detections emptyStore).getD 0 ⟨"", 0, 0⟩).masse
        = ((get_monthly_detections emptyStore).getD 0 ⟨"", 0, 0⟩).detection_count
            * 100 := by
  have h := monthly_breakdown_shape emptyStore
  have h0 := h.2.2.2 0 (by decide)
  constructor
  · rw [h0]; rfl
  · rw [h0]

/-- Claim C9: the monthly breakdown is computed only from events whose
detection year is 2025 (restricting the store to year-2025 events changes
nothing), and the month names are exactly the French names
Janvier..Décembre. -/
theorem monthly_only_year_2025_french (st : Store) :
    get_monthly_detections st =
      get_monthly_detections
        { nextId := st.nextId,
          events := st.events.filter (fun e => e.detection_time.year = 2025) } ∧
    (get_monthly_detections st).map (fun r => r.month_name)
        = ["Janvier", "Février", "Mars", "Avril", "Mai", "Juin", "Juillet",
           "Août", "Septembre", "Octobre", "Novembre", "Décembre"] := by
  have hff : ∀ (l : List Detection),
      (l.filter (fun e => e.detection_time.year = 2025)).filter
          (fun e => e.detection_time.year = 2025)
        = l.filter (fun e => e.detection_time.year = 2025) := by
    intro l
    rw [List.filter_filter]
    apply List.filter_congr
    intro a _
    exact Bool.and_self _
  constructor
  · unfold get_monthly_detections
    apply List.map_congr_left
    intro p _
    have hmc : monthCount
        { nextId := st.nextId,
          events := st.events.filter (fun e => e.detection_time.year = 2025) }
        p.1 = monthCount st p.1 := by
      simp only [monthCount]
      rw [hff]
    rw [hmc]
  · simp [get_monthly_detections, monthsTable]

/-- Counterexample to C2 as stated: on the empty store the daily average
confidence is SQL NULL (`none`), not `0` — `AVG` over zero rows is NULL and
`get_stats` does not special-case it (only the hourly rows coalesce with
`float(conf or 0)`). -/
theorem daily_avg_null_not_zero_cex :
    (get_stats emptyStore ⟨2025, 6, 15, 12, 0, 0⟩ 24).daily_avg_confidence
        = none ∧
    (get_stats emptyStore ⟨2025, 6, 15, 12, 0, 0⟩ 24).daily_avg_confidence
        ≠ some 0 := by
  decide

/-- Claim C2 (amended): for every store state in which no events fall on the
queried day, the daily statistics report `count = 0`, `estimatedMassKg = 0`
and `avgConfidence = null` (`none`), not `0`. -/
theorem daily_stats_empty_window (st : Store) (now : DateTime) (hours : Nat)
    (h : st.events.filter (fun e => sameDate e.detection_time now) = []) :
    (get_stats st now hours).daily_total = 0 ∧
    (get_stats st now hours).daily_avg_confidence = none ∧
    (get_stats st now hours).compost_kg = 0 := by
  simp [get_stats, h]

/-- Witness for C2 (amended): the empty store for an arbitrary "today". -/
theorem daily_stats_empty_window_witness :
    (get_stats emptyStore ⟨2025, 6, 15, 12, 0, 0⟩ 24).daily_total = 0 ∧
    (get_stats emptyStore ⟨2025, 6, 15, 12, 0, 0⟩ 24).daily_avg_confidence
        = none ∧
    (get_stats emptyStore ⟨2025, 6, 15, 12, 0, 0⟩ 24).compost_kg = 0 :=
  daily_stats_empty_window emptyStore ⟨2025, 6, 15, 12, 0, 0⟩ 24 rfl

/-- Counterexample to C4 as stated: unsubscribing a handle twice is not a
no-op — the second `list.remove` raises `ValueError` (an already-removed or
never-subscribed handle is not tolerated). -/
theorem unsubscribe_twice_raises_cex :
    listRemove [({ cid := 1, alive := true, inbox := [] } : Client Nat)] 1
        = Except.ok [] ∧
    listRemove ([] : List (Client Nat)) 1
        = Except.error ValueError.notInList :=
  ⟨rfl, rfl⟩

/-- Claim C4 (amended): removing a subscribed handle removes its first
occurrence (shrinking the set by one); removing an already-removed or
never-subscribed handle raises `ValueError` instead of being a silent no-op
(the subscriber list itself is untouched by the failed call, since the error
is raised before any mutation). -/
theorem unsubscribe_absent_raises {α : Type} (l : List (Client α))
    (target : Nat) :
    (target ∉ l.map (fun c => c.cid) →
      listRemove l target = Except.error ValueError.notInList) ∧
    (target ∈ l.map (fun c => c.cid) →
      ∃ l', listRemove l target = Except.ok l' ∧ l'.length + 1 = l.length) := by
  induction l with
  | nil =>
    refine ⟨fun _ => rfl, fun hmem => ?_⟩
    simp at hmem
  | cons c cs ih =>
    constructor
    · intro hnot
      rw [List.map_cons, List.mem_cons] at hnot
      push_neg at hnot
      have h1 : ¬ c.cid = target := fun h => hnot.1 h.symm
      simp only [listRemove, if_neg h1]
      rw [ih.1 hnot.2]
      rfl
    · intro hmem
      rw [List.map_cons, List.mem_cons] at hmem
      by_cases hc : c.cid = target
      · exact ⟨cs, by simp [listRemove, hc], by simp⟩
      · have hcs : target ∈ cs.map (fun c => c.cid) := by
          rcases hmem with h | h
          · exact absurd h.symm hc
          · exact h
        rcases ih.2 hcs with ⟨l', hl', hlen⟩
        refine ⟨c :: l', ?_, by simp; omega⟩
        simp only [listRemove, if_neg hc, hl']
        rfl

/-- Witness for C4 (amended): removing handle 1 from the empty subscriber
list raises `ValueError`. -/
theorem unsubscribe_absent_raises_witness :
    listRemove ([] : List (Client Nat)) 1
        = Except.error ValueError.notInList :=
  (unsubscribe_absent_raises ([] : List (Client Nat)) 1).1 (by simp)

theorem broadcast_all_alive {α : Type} (msg : α) :
    ∀ (conns : List (Client α)), (∀ c ∈ conns, c.alive = true) →
      broadcast conns msg
        = (conns.map (fun c => { c with inbox := c.inbox ++ [msg] }), none) := by
  intro conns
  induction conns with
  | nil => intro _; rfl
  | cons c cs ih =>
    intro h
    have hc : c.alive = true := h c (List.mem_cons_self c cs)
    have hrest := ih (fun d hd => h d (List.mem_cons_of_mem c hd))
    simp [broadcast, hc, hrest]

theorem broadcast_preserves_cids {α : Type} (msg : α) :
    ∀ (conns : List (Client α)),
      (broadcast conns msg).1.map (fun c => c.cid)
        = conns.map (fun c => c.cid) := by
  intro conns
  induction conns with
  | nil => rfl
  | cons c cs ih =>
    by_cases hc : c.alive
    · simp [broadcast, hc, ih]
    · simp [broadcast, hc]

theorem broadcast_stops_at_dead {α : Type} (msg : α) (c : Client α)
    (post : List (Client α)) (hc : c.alive = false) :
    ∀ (pre : List (Client α)), (∀ p ∈ pre, p.alive = true) →
      broadcast (pre ++ c :: post) msg
        = (pre.map (fun p => { p with inbox := p.inbox ++ [msg] })
            ++ c :: post,
           some ChannelError.sendFailed) := by
  intro pre
  induction pre with
  | nil => intro _; simp [broadcast, hc]
  | cons p ps ih =>
    intro h
    have hp : p.alive = true := h p (List.mem_cons_self p ps)
    have hrest := ih (fun d hd => h d (List.mem_cons_of_mem p hd))
    simp [broadcast, hp, hrest]

/-- Counterexample to C1 as stated: with subscribers `[dead#1, alive#2]`,
`broadcast` stops at the dead client — client 2 never receives the message,
the dead client is not removed, and the error does propagate (so the
`reportDetection` handler that triggered the broadcast fails). -/
theorem broadcast_dead_client_cex :
    broadcast [({ cid := 1, alive := false, inbox := [] } : Client Nat),
               { cid := 2, alive := true, inbox := [] }] 7
      = ([{ cid := 1, alive := false, inbox := [] },
          { cid := 2, alive := true, inbox := [] }],
         some ChannelError.sendFailed) ∧
    (add_detection emptyStore
        [{ cid := 1, alive := false, inbox := [] },
         { cid := 2, alive := true, inbox := [] }]
        (1/2) ⟨2025, 6, 15, 12, 0, 0⟩).2.2
      = Except.error ChannelError.sendFailed :=
  ⟨rfl, rfl⟩

/-- Claim C1 (amended): `broadcast` walks the subscriber list in order.  When
every connection is alive, every subscriber receives the message and no error
is raised.  The subscriber list is never changed by `broadcast` (no automatic
unsubscribe on failure).  When a dead connection is hit, the subscribers
before it have received the message, the dead one and all later ones receive
nothing, and the `ChannelError` propagates to the caller (the
`reportDetection` request). -/
theorem broadcast_delivery_semantics {α : Type} (conns : List (Client α))
    (msg : α) :
    ((∀ c ∈ conns, c.alive = true) →
      broadcast conns msg
        = (conns.map (fun c => { c with inbox := c.inbox ++ [msg] }), none)) ∧
    ((broadcast conns msg).1.map (fun c => c.cid)
        = conns.map (fun c => c.cid)) ∧
    (∀ pre c post, conns = pre ++ c :: post →
      (∀ p ∈ pre, p.alive = true) → c.alive = false →
      broadcast conns msg
        = (pre.map (fun p => { p with inbox := p.inbox ++ [msg] })
            ++ c :: post,
           some ChannelError.sendFailed)) := by
  refine ⟨broadcast_all_alive msg conns, broadcast_preserves_cids msg conns, ?_⟩
  intro pre c post hsplit hpre hc
  rw [hsplit]
  exact broadcast_stops_at_dead msg c post hc pre hpre

/-- Witness for C1 (amended): one live subscriber receives the message and no
error is raised. -/
theorem broadcast_delivery_semantics_witness :
    broadcast [({ cid := 1, alive := true, inbox := [] } : Client Nat)] 5
      = ([{ cid := 1, alive := true, inbox := [5] }], none) := by
  have h := (broadcast_delivery_semantics
    [({ cid := 1, alive := true, inbox := [] } : Client Nat)] 5).1 (by decide)
  simpa using h

theorem hourlyRows_counts_sum (recent : List Detection) :
    ((hourlyRows recent).map (fun r => r.count)).sum = recent.length := by
  have hmem : ∀ a ∈ recent, a.detection_time.hour ∈
      groupKeys (recent.map (fun e => e.detection_time.hour)) := by
    intro a ha
    exact (mem_groupKeys _ _).mpr (List.mem_map_of_mem _ ha)
  have h := sum_filter_lengths (fun e => e.detection_time.hour)
    (groupKeys (recent.map (fun e => e.detection_time.hour))) recent
    (pairwise_groupKeys _) hmem
  simpa [hourlyRows, List.map_map, Function.comp] using h

/-- Counterexample to C3 as stated: `now` is 2025-06-15 12:00:00 and the sole
stored event is at 10:00:00 the same day.  With `hours = 1` the trailing
1-hour window starts at 11:00:00 and excludes the event (second conjunct),
yet the hourly breakdown still reports it (first conjunct): the SQL hardcodes
`'-24 hours'` and ignores the parameter. -/
theorem stats_hours_param_ignored_cex :
    ((get_stats
        { nextId := 2,
          events := [{ id := 1, detection_time := ⟨2025, 6, 15, 10, 0, 0⟩,
                       item_type := "organic", confidence := 9/10 }] }
        ⟨2025, 6, 15, 12, 0, 0⟩ 1).hourly_data.map (fun r => r.hour)
      = ["10"]) ∧
    dtLt ⟨2025, 6, 15, 11, 0, 0⟩ ⟨2025, 6, 15, 10, 0, 0⟩ = false := by
  constructor
  · rfl
  · rfl

/-- Claim C3 (amended): the `hours` window parameter of `getStats` is ignored
— the result is identical for every value — and the hourly breakdown covers
exactly the events of the fixed trailing 24-hour window
(`detection_time > datetime('now','-24 hours')`): its row counts sum to the
number of such events. -/
theorem stats_window_fixed_24h (st : Store) (now : DateTime) (hours : Nat) :
    get_stats st now hours = get_stats st now 24 ∧
    ((get_stats st now hours).hourly_data.map (fun r => r.count)).sum
        = (st.events.filter
            (fun e => dtLt (prevDay now) e.detection_time)).length := by
  exact ⟨rfl, hourlyRows_counts_sum _⟩

theorem hourLabel_mem_of_lt : ∀ h, h < 24 → hourLabel h ∈ hourLabels := by
  decide

theorem hourLabel_lt_of_lt : ∀ b, b < 24 → ∀ a, a < b →
    strLt (hourLabel a) (hourLabel b) = true := by
  decide

/-- Claim C8: for every store (with well-formed timestamps), every hourly
breakdown row has `count ≥ 1` (hours with no events are absent, not
zero-filled), every label is a two-digit string `"00"`..`"23"`, and the rows
appear in strictly ascending label order. -/
theorem hourly_sparse_two_digit_sorted (st : Store) (now : DateTime)
    (hours : Nat) (hvalid : ∀ e ∈ st.events, e.detection_time.hour < 24) :
    (∀ r ∈ (get_stats st now hours).hourly_data, 1 ≤ r.count) ∧
    (∀ r ∈ (get_stats st now hours).hourly_data, r.hour ∈ hourLabels) ∧
    ((get_stats st now hours).hourly_data.map (fun r => r.hour)).Pairwise
      (fun a b => strLt a b = true) := by
  have hdata : (get_stats st now hours).hourly_data
      = hourlyRows (st.events.filter
          (fun e => dtLt (prevDay now) e.detection_time)) := rfl
  set recent := st.events.filter
    (fun e => dtLt (prevDay now) e.detection_time) with hrec
  have hval24 : ∀ e ∈ recent, e.detection_time.hour < 24 := by
    intro e he
    exact hvalid e (List.mem_filter.mp he).1
  have hkey24 : ∀ h ∈ groupKeys
      (recent.map (fun e => e.detection_time.hour)), h < 24 := by
    intro h hh
    rcases List.mem_map.mp ((mem_groupKeys _ _).mp hh) with ⟨e, he, rfl⟩
    exact hval24 e he
  refine ⟨?_, ?_, ?_⟩
  · intro r hr
    rw [hdata] at hr
    rcases List.mem_map.mp hr with ⟨h, hh, rfl⟩
    rcases List.mem_map.mp ((mem_groupKeys _ _).mp hh) with ⟨e, he, heq⟩
    have hmemf : e ∈ recent.filter (fun x => x.detection_time.hour = h) :=
      List.mem_filter.mpr ⟨he, by simp [heq]⟩
    simpa using List.length_pos_of_mem hmemf
  · intro r hr
    rw [hdata] at hr
    rcases List.mem_map.mp hr with ⟨h, hh, rfl⟩
    simpa using hourLabel_mem_of_lt h (hkey24 h hh)
  · rw [hdata]
    have hmm : (hourlyRows recent).map (fun r => r.hour)
        = (groupKeys (recent.map (fun e => e.detection_time.hour))).map
            hourLabel := by
      simp only [hourlyRows, List.map_map]
      apply List.map_congr_left
      intro h _
      rfl
    rw [hmm, List.pairwise_map]
    apply List.Pairwise.imp_of_mem ?_ (pairwise_groupKeys _)
    intro a b ha hb hab
    exact hourLabel_lt_of_lt b (hkey24 b hb) a hab

/-- Witness for C8: instantiated on the one-event store, whose timestamp
hypothesis is discharged by evaluation. -/
theorem hourly_sparse_two_digit_sorted_witness :
    ((get_stats wStore wNow 24).hourly_data.map (fun r => r.hour)).Pairwise
      (fun a b => strLt a b = true) :=
  (hourly_sparse_two_digit_sorted wStore wNow 24 (by decide)).2.2
